import Mathlib

/-!
Verification of the ancestry-recording / periodic-compaction engine of
`practice/prototype_anc_samp_minimal.py` (fwdpy11_arg_example).

Shallow embedding conventions:
* numpy `uint32` node ids are `Nat` values reduced `% 2^32` at the points
  where the source stores them into a `uint32` array; Python `int`s
  (unbounded) are `Nat`/`Int` without reduction.
* `np.float` times are modelled as `ℚ` (all times handled by the program are
  integer generation counts, so rational arithmetic is exact here).
* The external collaborators (msprime's `simulate`/`dump_tables`,
  `sort_tables`, `simplify_tables`, and the seeded `np.random` stream) are
  abstracted as a record `Externals` of deterministic functions, matching §6 of the
  design: their contracts are specified, their internals are out of scope.
* Python exceptions (`ZeroDivisionError` from `generation % 0`) are modelled
  with `Except Unit`.
-/

/-- `node_dt`: `{id: uint32, generation: float, population: int32}`. -/
structure Node where
  id : Nat
  generation : ℚ
  population : Int
  deriving DecidableEq, Repr

/-- `edge_dt`: `{left: float, right: float, parent: int32, child: int32}`.
The per-generation edges are built as Python tuples (unbounded ints), so
`parent`/`child` are `Int` here. -/
structure Edge where
  left : ℚ
  right : ℚ
  parent : Int
  child : Int
  deriving DecidableEq, Repr

/-- A row of an `msprime.NodeTable` (`flags`, `population`, `time`). -/
structure MsNode where
  flags : Nat
  population : Int
  time : ℚ
  deriving DecidableEq, Repr

/-- A row of an `msprime.EdgeTable`. -/
structure MsEdge where
  left : ℚ
  right : ℚ
  parent : Int
  child : Int
  deriving DecidableEq, Repr

/-- `MockAncestryTracker`: buffered nodes/edges plus the two sample sets.
`samples` holds `uint32` current-generation chromosome ids; `anc_samples`
holds ancestral-sample ids, which after the remap on line 132 of the source
are images of msprime's `node_map` and hence modelled as `Int`. -/
structure Tracker where
  nodes : List Node
  edges : List Edge
  samples : List Nat
  anc_samples : List Int
  deriving DecidableEq, Repr

/-- `MockAncestryTracker.__init__`. -/
def Tracker.init : Tracker := ⟨[], [], [], []⟩

/-- `MockAncestryTracker.update_data`: append nodes/edges, *replace* the
current-sample set, append the ancestral-sample set. -/
def update_data (tr : Tracker) (new_nodes : List Node) (new_edges : List Edge)
    (new_samples : List Nat) (new_anc_samples : List Int) : Tracker :=
  { nodes := tr.nodes ++ new_nodes
    edges := tr.edges ++ new_edges
    samples := new_samples
    anc_samples := tr.anc_samples ++ new_anc_samples }

/-- `MockAncestryTracker.reset_data`: empty buffered nodes and edges only. -/
def reset_data (tr : Tracker) : Tracker :=
  { tr with nodes := [], edges := [] }

/-- `MockAncestryTracker.post_gc_cleanup(gc_rv)`: reset the buffer only when
`gc_rv[0] is True`. -/
def post_gc_cleanup (gc_rv : Bool × Option Nat) (tr : Tracker) : Tracker :=
  if gc_rv.1 then reset_data tr else tr

/-- `self.nodes['generation'].max()` (numpy raises on an empty array; every
call site in the program has a non-empty buffer, and claims about the rebase
assume non-emptiness). -/
def maxTime (ts : List ℚ) : ℚ :=
  ts.maximum.unbot' 0

/-- `MockAncestryTracker.convert_time`: in-place
`generation -= generation.max(); generation *= -1.0`. -/
def convert_time (tr : Tracker) : Tracker :=
  let m := maxTime (tr.nodes.map Node.generation)
  { tr with nodes := tr.nodes.map fun nd =>
      { nd with generation := (nd.generation - m) * (-1) } }

/-- Line 129 of the source:
`sorted(set((anc_samples + node_offset).tolist() + (samples + node_offset).tolist()), reverse=True)` —
shift both buffered sample sets by the compaction's node offset, collapse
duplicates, and sort in descending order. -/
def all_samples (anc samples : List Int) (node_offset : Int) : List Int :=
  (((anc.map (· + node_offset)) ++ (samples.map (· + node_offset))).dedup).insertionSort
    (fun a b => a ≥ b)

/-- Line 132 of the source:
`tracker.anc_samples = np.array([node_map[int(node_id)] for node_id in tracker.anc_samples])` —
each stored ancestral-sample id is replaced by its image under the remap,
unconditionally: there is no check against msprime's `-1` null sentinel. -/
def remap_anc (node_map : Int → Int) (anc : List Int) : List Int :=
  anc.map fun node_id => node_map node_id

/-- The external collaborators (§6 of the design), abstracted as
deterministic functions:
* `prior`: `msprime.simulate(...).dump_tables(...)` — the coalescent prior
  seeded from the run's seed and population size;
* `sort_tables` / `simplify_tables`: msprime's table sorting and graph
  reduction; `simplify_tables` returns the reduced tables and the node remap
  (`-1` is msprime's null sentinel);
* `randChoice` / `randParents` / `randMendel`: the seeded `np.random` stream
  (state-threaded; `randMendel` pre-draws the per-offspring pair of
  `random_sample(2) < 0.5` coin flips consumed inside the offspring loop). -/
structure Externals where
  prior : List MsNode × List MsEdge
  sort_tables : List MsNode → List MsEdge → List MsNode × List MsEdge
  simplify_tables : List Int → List MsNode → List MsEdge →
    (List MsNode × List MsEdge) × (Int → Int)
  randChoice : Nat → Nat → Nat → List Nat × Nat
  randParents : Nat → Nat → List Nat × Nat
  randMendel : Nat → Nat → List (Bool × Bool) × Nat

/-- `ARGsimplifier`: the two global msprime tables plus compaction
bookkeeping. -/
structure ARGsimplifier where
  nodes : List MsNode
  edges : List MsEdge
  gc_interval : Int
  last_gc_time : Nat
  deriving DecidableEq, Repr

/-- Result of `ARGsimplifier.simplify`: the returned `next_id`
(`self.nodes.num_rows`), the updated global tables, and the tracker after the
in-place `convert_time` and ancestral-sample remap. -/
structure SimplifyResult where
  next_id : Nat
  nodes : List MsNode
  edges : List MsEdge
  tracker : Tracker
  deriving DecidableEq, Repr

/-- `ARGsimplifier.simplify(generation, tracker)` (lines 89–135). -/
def simplify (E : Externals) (popsize : Nat) (generation : Nat) (a : ARGsimplifier)
    (tr : Tracker) : SimplifyResult :=
  let (gNodes, gEdges, node_offset) :=
    if generation = 1 then
      -- seed from the coalescent prior; times shifted forward by `generation`
      let (pn, pe) := E.prior
      (pn.map (fun nd => { nd with time := nd.time + (generation : ℚ) }), pe,
        (pn.length : Int) - 2 * (popsize : Int))
    else
      -- age existing global nodes by `generation - last_gc_time`
      let dt : ℚ := (generation : ℚ) - (a.last_gc_time : ℚ)
      (a.nodes.map (fun nd => { nd with time := nd.time + dt }), a.edges, (0 : Int))
  let tr1 := convert_time tr
  -- append buffered nodes (flags = 1) and edges (child ids offset)
  let gNodes2 := gNodes ++ tr1.nodes.map (fun nd => ⟨1, nd.population, nd.generation⟩)
  let gEdges2 := gEdges ++ tr1.edges.map (fun e => ⟨e.left, e.right, e.parent, e.child + node_offset⟩)
  let (sNodes, sEdges) := E.sort_tables gNodes2 gEdges2
  let samps := all_samples tr1.anc_samples (tr1.samples.map (fun s => (s : Int))) node_offset
  let (reduced, node_map) := E.simplify_tables samps sNodes sEdges
  let tr2 := { tr1 with anc_samples := remap_anc node_map tr1.anc_samples }
  ⟨reduced.1.length, reduced.1, reduced.2, tr2⟩

/-- The guard of `ARGsimplifier.__call__` (line 138):
`generation > 0 and (generation % self.gc_interval == 0 or generation == 1)`.
Python's `and`/`or` short-circuit, so `generation % 0` (a
`ZeroDivisionError`, modelled as `Except.error ()`) is only reached when
`generation > 0`.  Python's `%` has the divisor's sign, but agrees with
Lean's `Int.emod` on the `== 0` test for every non-zero divisor. -/
def gcTrigger (generation : Nat) (interval : Int) : Except Unit Bool :=
  if 0 < generation then
    if interval = 0 then Except.error ()
    else Except.ok (decide ((generation : Int) % interval = 0) || decide (generation = 1))
  else Except.ok false

/-- The trigger condition as a proposition. -/
def trigCond (generation : Nat) (interval : Int) : Prop :=
  0 < generation ∧ (((generation : Int) % interval = 0) ∨ generation = 1)

instance (g : Nat) (I : Int) : Decidable (trigCond g I) := by
  unfold trigCond; infer_instance

/-- `ARGsimplifier.__call__(generation, tracker)` (lines 137–143). -/
def ARGcall (E : Externals) (popsize : Nat) (generation : Nat) (a : ARGsimplifier)
    (tr : Tracker) : Except Unit ((Bool × Option Nat) × ARGsimplifier × Tracker) :=
  match gcTrigger generation a.gc_interval with
  | Except.error e => Except.error e
  | Except.ok true =>
      let r := simplify E popsize generation a tr
      Except.ok ((true, some r.next_id),
        { a with nodes := r.nodes, edges := r.edges, last_gc_time := generation }, r.tracker)
  | Except.ok false => Except.ok ((false, none), a, tr)

/-- Lines 271–272 of `__main__`: after the last generation, call `simplify`
directly (bypassing the interval check) whenever the buffer is non-empty.
The `Bool` records whether the flush ran. -/
def finalFlush (E : Externals) (popsize ngens : Nat) (a : ARGsimplifier) (tr : Tracker) :
    (ARGsimplifier × Tracker) × Bool :=
  if tr.nodes.length > 0 then
    let r := simplify E popsize ngens a tr
    (({ a with nodes := r.nodes, edges := r.edges }, r.tracker), true)
  else ((a, tr), false)

/-- A trivial instantiation of the external collaborators, used to evaluate
the embedding at concrete inputs. -/
def trivExt : Externals where
  prior := ([], [])
  sort_tables := fun n e => (n, e)
  simplify_tables := fun _ n e => ((n, e), fun _ => -1)
  randChoice := fun st _ _ => ([], st)
  randParents := fun st N => (List.replicate (2 * N) 0, st)
  randMendel := fun st N => (List.replicate N (false, false), st)

/-- C1: the sample list handed to `msprime.simplify_tables` is the
duplicate-free union of the shifted ancestral and current sample ids, sorted
strictly descending. -/
theorem all_samples_strict_desc_union (anc samples : List Int) (off : Int) :
    (all_samples anc samples off).Pairwise (· > ·) ∧
      ∀ x : Int, x ∈ all_samples anc samples off ↔
        ((∃ a ∈ anc, x = a + off) ∨ (∃ s ∈ samples, x = s + off)) := by
  constructor
  · have hsorted : (all_samples anc samples off).Sorted (fun a b => a ≥ b) :=
      List.sorted_insertionSort _ _
    have hnodup : (all_samples anc samples off).Nodup := by
      have hperm := List.perm_insertionSort (fun a b : Int => a ≥ b)
        (((anc.map (· + off)) ++ (samples.map (· + off))).dedup)
      exact hperm.symm.nodup (List.nodup_dedup _)
    exact List.Sorted.gt_of_ge hsorted hnodup
  · intro x
    unfold all_samples
    rw [List.mem_insertionSort, List.mem_dedup, List.mem_append]
    simp only [List.mem_map]
    constructor
    · rintro (⟨a, ha, rfl⟩ | ⟨s, hs, rfl⟩)
      · exact Or.inl ⟨a, ha, rfl⟩
      · exact Or.inr ⟨s, hs, rfl⟩
    · rintro (⟨a, ha, rfl⟩ | ⟨s, hs, rfl⟩)
      · exact Or.inl ⟨a, ha, rfl⟩
      · exact Or.inr ⟨s, hs, rfl⟩

/-- For any non-zero interval the guard evaluates without error, to the
decidable trigger condition. -/
theorem gcTrigger_eq_ok (g : Nat) (I : Int) (hI : I ≠ 0) :
    gcTrigger g I = Except.ok (decide (trigCond g I)) := by
  unfold gcTrigger trigCond
  by_cases hg : 0 < g
  · have h1 : decide (0 < g) = true := decide_eq_true hg
    simp [hg, hI, Bool.decide_and, Bool.decide_or, h1]
  · simp [hg]

/-- C2, counterexample: with the configured interval `0` and generation `2`
(not a compaction point under any reading of `g mod 0`), `__call__` raises
`ZeroDivisionError` from `generation % 0` instead of returning
`(False, None)` and leaving the state unchanged. -/
theorem argcall_zero_interval_raises :
    ARGcall trivExt 1 2 ⟨[], [], 0, 0⟩ Tracker.init = Except.error () ∧
      ARGcall trivExt 1 2 ⟨[], [], 0, 0⟩ Tracker.init ≠
        Except.ok ((false, none), ⟨[], [], 0, 0⟩, Tracker.init) := by
  refine ⟨rfl, fun h => ?_⟩
  rw [show ARGcall trivExt 1 2 ⟨[], [], 0, 0⟩ Tracker.init = Except.error () from rfl] at h
  exact Except.noConfusion h

/-- C2 (amended): for every *non-zero* configured interval `I`, `__call__`
compacts exactly when `g > 0` and (`g mod I == 0` or `g == 1`), and in every
other case returns `(False, None)` with the simplifier state, the tables and
the buffer all unchanged.  When `I == 0`, every call with `g > 0` raises
`ZeroDivisionError` (see the counterexample). -/
theorem argcall_compacts_iff_trigger (E : Externals) (popsize generation : Nat)
    (a : ARGsimplifier) (tr : Tracker) (hI : a.gc_interval ≠ 0) :
    (trigCond generation a.gc_interval →
      ∃ k a' tr', ARGcall E popsize generation a tr = Except.ok ((true, some k), a', tr')) ∧
    (¬ trigCond generation a.gc_interval →
      ARGcall E popsize generation a tr = Except.ok ((false, none), a, tr)) := by
  have hok := gcTrigger_eq_ok generation a.gc_interval hI
  constructor
  · intro h
    refine ⟨(simplify E popsize generation a tr).next_id,
      { a with nodes := (simplify E popsize generation a tr).nodes,
               edges := (simplify E popsize generation a tr).edges,
               last_gc_time := generation },
      (simplify E popsize generation a tr).tracker, ?_⟩
    unfold ARGcall
    rw [hok, decide_eq_true h]
  · intro h
    unfold ARGcall
    rw [hok, decide_eq_false h]

/-- Witness for C2 (amended): interval `2`, generation `4` compacts; interval
`2`, generation `3` is an exact no-op. -/
theorem argcall_compacts_iff_trigger_witness :
    (∃ k a' tr', ARGcall trivExt 1 4 ⟨[], [], 2, 0⟩ Tracker.init =
        Except.ok ((true, some k), a', tr')) ∧
      ARGcall trivExt 1 3 ⟨[], [], 2, 0⟩ Tracker.init =
        Except.ok ((false, none), ⟨[], [], 2, 0⟩, Tracker.init) :=
  ⟨(argcall_compacts_iff_trigger trivExt 1 4 ⟨[], [], 2, 0⟩ Tracker.init (by decide)).1
      (by decide),
    (argcall_compacts_iff_trigger trivExt 1 3 ⟨[], [], 2, 0⟩ Tracker.init (by decide)).2
      (by decide)⟩

/-- A small in-flight buffer state (non-empty, as at every real compaction
point) used to evaluate the embedding at concrete inputs. -/
def trBuf : Tracker := ⟨[⟨8, 4, 0⟩], [⟨0, 1, 6, 8⟩], [8, 9], []⟩

/-- C3, counterexample: with the *negative* configured interval `-2`,
compaction is not disabled: at generation `4` (where `4 % -2 == 0` in
Python), `__call__` compacts and returns `(True, next_id)`. -/
theorem argcall_negative_interval_compacts :
    (ARGcall trivExt 1 4 ⟨[], [], -2, 0⟩ trBuf).toOption.map (fun r => r.1.1) =
      some true := by
  decide

/-- C3 (amended): a zero interval does not disable compaction silently — every
`maybeCompact` call with `g > 0` raises `ZeroDivisionError`; a negative
interval triggers compaction whenever the interval divides `g` or `g == 1`
(counterexample above); and the mandatory final flush is independent of the
interval: it runs exactly when the buffer is non-empty. -/
theorem zero_interval_raises_and_flush_runs (E : Externals) (popsize generation : Nat)
    (a : ARGsimplifier) (tr : Tracker) :
    (a.gc_interval = 0 → 0 < generation →
      ARGcall E popsize generation a tr = Except.error ()) ∧
    ((finalFlush E popsize generation a tr).2 = true ↔ tr.nodes ≠ []) := by
  constructor
  · intro h0 hg
    unfold ARGcall gcTrigger
    simp [hg, h0]
  · unfold finalFlush
    by_cases h : tr.nodes.length > 0
    · simp [h]
      intro hnil
      rw [hnil] at h
      exact absurd h (by simp)
    · simp [h]
      have : tr.nodes = [] := List.length_eq_zero.mp (Nat.le_zero.mp (Nat.not_lt.mp h))
      simp [this]

/-- Witness for C3 (amended): interval `0` at generation `1` raises, and the
final flush runs on the non-empty buffer `trBuf` even though its simplifier
has interval `0`. -/
theorem zero_interval_raises_and_flush_runs_witness :
    ARGcall trivExt 1 1 ⟨[], [], 0, 0⟩ Tracker.init = Except.error () ∧
      (finalFlush trivExt 1 5 ⟨[], [], 0, 0⟩ trBuf).2 = true :=
  ⟨(zero_interval_raises_and_flush_runs trivExt 1 1 ⟨[], [], 0, 0⟩ Tracker.init).1
      rfl (by decide),
    (zero_interval_raises_and_flush_runs trivExt 1 5 ⟨[], [], 0, 0⟩ trBuf).2.mpr
      (by decide)⟩

/-- C4, counterexample: a reduction remap sending every id to msprime's null
sentinel `-1`.  `simplify` neither raises nor filters: it returns normally
and silently stores the sentinel into the ancestral-sample set. -/
theorem sentinel_silently_stored :
    (simplify trivExt 1 4 ⟨[], [], 2, 0⟩ ⟨[⟨8, 4, 0⟩], [], [2, 3], [5]⟩).tracker.anc_samples
      = [-1] := by
  decide

/-- C4 (amended): the remap on line 132 replaces each stored
ancestral-sample id by its image under `node_map` unconditionally; in
particular, when some stored id maps to the null sentinel `-1`, the sentinel
is stored into the ancestral-sample set (and no error of any kind is raised —
`remap_anc` is total). -/
theorem remap_anc_stores_sentinel (node_map : Int → Int) (anc : List Int) (j : Int)
    (hj : j ∈ anc) (hmap : node_map j = -1) :
    (-1 : Int) ∈ remap_anc node_map anc := by
  unfold remap_anc
  exact List.mem_map.mpr ⟨j, hj, hmap⟩

/-- Witness for C4 (amended). -/
theorem remap_anc_stores_sentinel_witness :
    (-1 : Int) ∈ remap_anc (fun _ => -1) [5] :=
  remap_anc_stores_sentinel (fun _ => -1) [5] 5 (by decide) rfl

/-- Lines 205–208 of `wf`: the generation's `2N` new nodes.  `nodes['id']`
is a `uint32` `np.arange(next_id, next_id + 2N)`, so each stored id is
reduced modulo `2^32` (numpy wraps silently on overflow). -/
def makeNodes (N gen next_id : Nat) : List Node :=
  (List.range (2 * N)).map fun i => ⟨(next_id + i) % 2 ^ 32, (gen : ℚ) + 1, 0⟩

/-- `zip(parents[::2], parents[1::2])`: consecutive entries of the drawn
parent array paired up (a trailing odd element is dropped, as `zip` does). -/
def pairsOf : List Nat → List (Nat × Nat)
  | [] => []
  | [_] => []
  | a :: b :: rest => (a, b) :: pairsOf rest

/-- The offspring loop of `wf` (lines 218–243): for each parent pair, fetch
the diploids' chromosome ids, apply the Mendel swap, emit two full-interval
edges and two offspring ids, and advance `next_id` by 2.  Offspring ids are
stored into the `uint32` array `new_diploids` (hence `% 2^32`); the edge
tuples hold plain Python ints. -/
def makeOffspring (diploids : List Nat) :
    List (Nat × Nat) → List (Bool × Bool) → Nat → List Edge × List Nat × Nat
  | [], _, nid => ([], [], nid)
  | _ :: _, [], nid => ([], [], nid)
  | (p1, p2) :: ps, m :: ms, nid =>
      let p1g1 := diploids.getD (2 * p1) 0
      let p1g2 := diploids.getD (2 * p1 + 1) 0
      let p2g1 := diploids.getD (2 * p2) 0
      let p2g2 := diploids.getD (2 * p2 + 1) 0
      let c1 := if m.1 then p1g2 else p1g1
      let c2 := if m.2 then p2g2 else p2g1
      let rest := makeOffspring diploids ps ms (nid + 2)
      (⟨0, 1, (c1 : Int), (nid : Int)⟩ :: ⟨0, 1, (c2 : Int), (nid : Int) + 1⟩ :: rest.1,
        (nid % 2 ^ 32) :: ((nid + 1) % 2 ^ 32) :: rest.2.1, rest.2.2)

/-- Run parameters: diploid population size, GC interval, generation count,
and the ancestral-sample schedule (`anc_sample_gen`, whose generation values
are Python floats — rationals here). -/
structure Params where
  N : Nat
  gc_interval : Int
  ngens : Nat
  sched : List (ℚ × Nat)

/-- The driver's per-generation state: loop index, the `diploids` array,
`next_id`, the schedule pointer `ancestral_gen_counter`, the `np.random`
stream state, the tracker buffer and the global simplifier. -/
structure SimState where
  gen : Nat
  diploids : List Nat
  next_id : Nat
  anc_counter : Nat
  rng : Nat
  tracker : Tracker
  simplifier : ARGsimplifier
  deriving DecidableEq

/-- Line 195 of `wf`: the ancestral-retention entry at the schedule pointer
fires when the pointer is in range and the entry's generation value equals
`gen + 1` (a float comparison in the source; exact on the ℚ model). -/
def schedFires (sched : List (ℚ × Nat)) (counter gen : Nat) : Prop :=
  counter < sched.length ∧ ((gen : ℚ) + 1 = (sched.getD counter (0, 0)).1)

instance (sched : List (ℚ × Nat)) (counter gen : Nat) :
    Decidable (schedFires sched counter gen) := by
  unfold schedFires; infer_instance

/-- Lines 191–246 of `wf`: one generation's work after the GC decision —
schedule check (and possible ancestral-sample draw), node/edge creation, the
offspring loop, and the atomic `update_data` commit. -/
def genBody (E : Externals) (P : Params) (s : SimState) : SimState :=
  let entry := P.sched.getD s.anc_counter (0, 0)
  let fires := schedFires P.sched s.anc_counter s.gen
  let rc := E.randChoice s.rng P.N entry.2
  let ran := if fires then rc.1 else []
  let rng1 := if fires then rc.2 else s.rng
  let ancestral_samples : List Int :=
    (ran.map fun r => 2 * (r : Int) + (s.next_id : Int)) ++
      (ran.map fun r => 2 * (r : Int) + 1 + (s.next_id : Int))
  let counter' := if fires then s.anc_counter + 1 else s.anc_counter
  let nodes := makeNodes P.N s.gen s.next_id
  let rp := E.randParents rng1 P.N
  let rm := E.randMendel rp.2 P.N
  let omr := makeOffspring s.diploids (pairsOf rp.1) rm.1 s.next_id
  { s with
    gen := s.gen + 1
    diploids := omr.2.1
    next_id := omr.2.2
    anc_counter := counter'
    rng := rm.2
    tracker := update_data s.tracker nodes omr.1 omr.2.1 ancestral_samples }

/-- Lines 174–189 of `wf` in the case where GC ran: `simplify`, then
`post_gc_cleanup((True, next_id))`, then reset `next_id` to the returned
table length and `diploids` to `np.arange(2N)`. -/
def applyGC (E : Externals) (P : Params) (s : SimState) : SimState :=
  let r := simplify E P.N s.gen s.simplifier s.tracker
  { s with
    simplifier := { s.simplifier with nodes := r.nodes, edges := r.edges, last_gc_time := s.gen }
    tracker := post_gc_cleanup (true, some r.next_id) r.tracker
    next_id := r.next_id
    diploids := List.range (2 * P.N) }

/-- One iteration of the `for gen in range(ngens)` loop, as a step relation
split on the GC guard (in the no-GC branch `post_gc_cleanup((False, None))`
is the identity on the tracker). -/
inductive GenStep (E : Externals) (P : Params) : SimState → SimState → Prop
  | gc {s t : SimState}
      (hg : gcTrigger s.gen s.simplifier.gc_interval = Except.ok true)
      (ht : t = genBody E P (applyGC E P s)) : GenStep E P s t
  | nogc {s t : SimState}
      (hg : gcTrigger s.gen s.simplifier.gc_interval = Except.ok false)
      (ht : t = genBody E P s) : GenStep E P s t

/-- `n` consecutive generations. -/
inductive RunN (E : Externals) (P : Params) : Nat → SimState → SimState → Prop
  | zero {s : SimState} : RunN E P 0 s s
  | succ {n : Nat} {s t u : SimState} (h : GenStep E P s t) (hr : RunN E P n t u) :
      RunN E P (n + 1) s u

/-- The state at the top of `wf`: identity diploids, `next_id = 2N`, empty
tracker, fresh simplifier, RNG seeded. -/
def initState (P : Params) (seed : Nat) : SimState :=
  { gen := 0
    diploids := List.range (2 * P.N)
    next_id := 2 * P.N
    anc_counter := 0
    rng := seed
    tracker := Tracker.init
    simplifier := ⟨[], [], P.gc_interval, 0⟩ }

/-- A complete run: `ngens` generations from the seeded initial state,
followed by the mandatory final flush (lines 260–272 of `__main__`). -/
def CompleteRun (E : Externals) (P : Params) (seed : Nat)
    (out : (ARGsimplifier × Tracker) × Bool) : Prop :=
  ∃ s, RunN E P P.ngens (initState P seed) s ∧
    out = finalFlush E P.N P.ngens s.simplifier s.tracker

/-- C9: `post_gc_cleanup` empties the buffered nodes and edges exactly when
the GC return value says a compaction ran, leaves them untouched otherwise
(`post_gc_cleanup((False, None))` is the identity), and in all cases leaves
both sample sets unchanged. -/
theorem post_gc_cleanup_frame (gc_rv : Bool × Option Nat) (tr : Tracker) :
    (post_gc_cleanup gc_rv tr).samples = tr.samples ∧
      (post_gc_cleanup gc_rv tr).anc_samples = tr.anc_samples ∧
      (post_gc_cleanup gc_rv tr).nodes = (if gc_rv.1 then [] else tr.nodes) ∧
      (post_gc_cleanup gc_rv tr).edges = (if gc_rv.1 then [] else tr.edges) ∧
      post_gc_cleanup (false, none) tr = tr := by
  unfold post_gc_cleanup reset_data
  by_cases h : gc_rv.1 <;> simp [h]

/-- For a non-empty time list, `maxTime` is attained and dominates. -/
theorem maxTime_spec (ts : List ℚ) (h : ts ≠ []) :
    maxTime ts ∈ ts ∧ ∀ a ∈ ts, a ≤ maxTime ts := by
  obtain ⟨m, hm⟩ := WithBot.ne_bot_iff_exists.mp (List.maximum_ne_bot_of_ne_nil h)
  have hmax : maxTime ts = m := by
    unfold maxTime; rw [← hm]; rfl
  constructor
  · rw [hmax]; exact List.maximum_mem hm.symm
  · intro a ha
    rw [hmax]
    exact List.le_maximum_of_mem ha hm.symm

/-- C6: `convert_time` rebases every buffered forward time `t` to
`max(times) − t`; the maximum-time node rebases to exactly zero, and the
relative order of any two buffered times is reversed. -/
theorem convert_time_rebases (tr : Tracker) (h : tr.nodes ≠ []) :
    ((convert_time tr).nodes.map Node.generation =
      tr.nodes.map fun nd => maxTime (tr.nodes.map Node.generation) - nd.generation) ∧
      ((0 : ℚ) ∈ (convert_time tr).nodes.map Node.generation) ∧
      (∀ t1 ∈ tr.nodes.map Node.generation, ∀ t2 ∈ tr.nodes.map Node.generation,
        (t1 ≤ t2 ↔ maxTime (tr.nodes.map Node.generation) - t2 ≤
          maxTime (tr.nodes.map Node.generation) - t1)) := by
  have hmap : (convert_time tr).nodes.map Node.generation =
      tr.nodes.map fun nd => maxTime (tr.nodes.map Node.generation) - nd.generation := by
    unfold convert_time
    rw [List.map_map]
    refine List.map_congr_left fun nd _ => ?_
    simp only [Function.comp_apply]
    ring
  refine ⟨hmap, ?_, ?_⟩
  · have hne : tr.nodes.map Node.generation ≠ [] := by
      intro hc; exact h (List.map_eq_nil_iff.mp hc)
    obtain ⟨hmem, -⟩ := maxTime_spec _ hne
    obtain ⟨nd, hnd, hgen⟩ := List.mem_map.mp hmem
    rw [hmap]
    exact List.mem_map.mpr ⟨nd, hnd, by rw [hgen, sub_self]⟩
  · intro t1 _ t2 _
    exact Iff.symm (sub_le_sub_iff_left _)

/-- A concrete three-node buffer used as the C6 witness input. -/
def trW : Tracker := ⟨[⟨0, 1, 0⟩, ⟨1, 3, 0⟩, ⟨2, 2, 0⟩], [], [], []⟩

/-- Witness for C6 on a concrete three-node buffer. -/
theorem convert_time_rebases_witness :
    ((convert_time trW).nodes.map Node.generation =
      trW.nodes.map fun nd => maxTime (trW.nodes.map Node.generation) - nd.generation) ∧
      ((0 : ℚ) ∈ (convert_time trW).nodes.map Node.generation) ∧
      (∀ t1 ∈ trW.nodes.map Node.generation, ∀ t2 ∈ trW.nodes.map Node.generation,
        (t1 ≤ t2 ↔ maxTime (trW.nodes.map Node.generation) - t2 ≤
          maxTime (trW.nodes.map Node.generation) - t1)) :=
  convert_time_rebases trW (by decide)

/-- `zip(parents[::2], parents[1::2])` yields `⌊len/2⌋` pairs. -/
theorem pairsOf_length : ∀ l : List Nat, (pairsOf l).length = l.length / 2
  | [] => by simp [pairsOf]
  | [_] => by simp [pairsOf]
  | _ :: _ :: rest => by
      simp only [pairsOf, List.length_cons, pairsOf_length rest]
      omega

/-- The offspring loop emits two full-interval edges and two offspring ids
per parent pair and advances `next_id` by 2 per pair. -/
theorem makeOffspring_stats (diploids : List Nat) :
    ∀ (ps : List (Nat × Nat)) (ms : List (Bool × Bool)) (nid : Nat),
      ps.length ≤ ms.length →
      (makeOffspring diploids ps ms nid).1.length = 2 * ps.length ∧
        (makeOffspring diploids ps ms nid).2.1.length = 2 * ps.length ∧
        (makeOffspring diploids ps ms nid).2.2 = nid + 2 * ps.length ∧
        ∀ e ∈ (makeOffspring diploids ps ms nid).1, e.left = 0 ∧ e.right = 1
  | [], _, nid, _ => by
      simp [makeOffspring]
  | _ :: _, [], _, h => by
      simp at h
  | (p1, p2) :: ps, m :: ms, nid, h => by
      have ih := makeOffspring_stats diploids ps ms (nid + 2) (by simpa using h)
      obtain ⟨ih1, ih2, ih3, ih4⟩ := ih
      refine ⟨?_, ?_, ?_, ?_⟩
      · simp [makeOffspring, ih1]; omega
      · simp [makeOffspring, ih2]; omega
      · simp [makeOffspring, ih3]; omega
      · intro e he
        simp only [makeOffspring, List.mem_cons] at he
        rcases he with rfl | rfl | he
        · exact ⟨rfl, rfl⟩
        · exact ⟨rfl, rfl⟩
        · exact ih4 e he

/-- The generation's node block has `2N` rows. -/
theorem makeNodes_length (N gen nid : Nat) : (makeNodes N gen nid).length = 2 * N := by
  simp [makeNodes]

/-- The generation's node ids are `(next_id + i) % 2^32` for `i < 2N`
(numpy `uint32` arange semantics: silent wrap-around, no overflow check). -/
theorem makeNodes_ids_mod (N gen nid : Nat) :
    (makeNodes N gen nid).map Node.id =
      (List.range (2 * N)).map fun i => (nid + i) % 2 ^ 32 := by
  unfold makeNodes
  rw [List.map_map]
  rfl

/-- Below the `uint32` range the generation's node ids form the contiguous
increasing range `[next_id, next_id + 2N)`. -/
theorem makeNodes_ids (N gen nid : Nat) (h : nid + 2 * N ≤ 2 ^ 32) :
    (makeNodes N gen nid).map Node.id = (List.range (2 * N)).map fun i => nid + i := by
  rw [makeNodes_ids_mod]
  refine List.map_congr_left fun i hi => ?_
  have hlt : nid + i < 2 ^ 32 := by
    have := List.mem_range.mp hi
    omega
  exact Nat.mod_eq_of_lt hlt

/-- C7: in any simulated generation the driver creates exactly `2N` new
nodes whose ids form the contiguous increasing range
`[next_id, next_id + 2N)`, exactly `2N` new edges each spanning the full
interval `[0.0, 1.0)`, and advances `next_id` by exactly `2N`.
The two length hypotheses are the contracts of `np.random.randint(0, N, 2N)`
and of the per-offspring `random_sample(2)` draws; the bound keeps the
`uint32` ids below the wrap point (see C5 for what happens above it). -/
theorem wf_generation_2N (E : Externals) (P : Params) (s : SimState)
    (hpar : ∀ st, (E.randParents st P.N).1.length = 2 * P.N)
    (hmen : ∀ st, (E.randMendel st P.N).1.length = P.N)
    (hbound : s.next_id + 2 * P.N ≤ 2 ^ 32) :
    (genBody E P s).tracker.nodes.length = s.tracker.nodes.length + 2 * P.N ∧
      ((genBody E P s).tracker.nodes.drop s.tracker.nodes.length).map Node.id =
        (List.range (2 * P.N)).map (fun i => s.next_id + i) ∧
      (genBody E P s).tracker.edges.length = s.tracker.edges.length + 2 * P.N ∧
      (∀ e ∈ (genBody E P s).tracker.edges.drop s.tracker.edges.length,
        e.left = 0 ∧ e.right = 1) ∧
      (genBody E P s).next_id = s.next_id + 2 * P.N := by
  have hfl : ∀ rng1 : Nat, (pairsOf (E.randParents rng1 P.N).1).length = P.N := by
    intro rng1
    rw [pairsOf_length, hpar]
    omega
  unfold genBody update_data
  dsimp only
  constructor
  · simp [makeNodes_length]
  constructor
  · rw [List.drop_left, makeNodes_ids _ _ _ hbound]
  · have hstats := makeOffspring_stats s.diploids
      (pairsOf (E.randParents
        (if schedFires P.sched s.anc_counter s.gen
          then (E.randChoice s.rng P.N (P.sched.getD s.anc_counter (0, 0)).2).2
          else s.rng) P.N).1)
      (E.randMendel (E.randParents
        (if schedFires P.sched s.anc_counter s.gen
          then (E.randChoice s.rng P.N (P.sched.getD s.anc_counter (0, 0)).2).2
          else s.rng) P.N).2 P.N).1
      s.next_id
      (by rw [hfl, hmen])
    obtain ⟨h1, -, h3, h4⟩ := hstats
    refine ⟨?_, ?_, ?_⟩
    · rw [List.length_append, h1, hfl]
    · rw [List.drop_left]
      exact h4
    · rw [h3, hfl]

/-- Baseline run parameters used for concrete witnesses: one diploid,
interval 5, one generation, no ancestral schedule. -/
def P0 : Params := ⟨1, 5, 1, []⟩

/-- Witness for C7 at the seeded initial state of a one-diploid run. -/
theorem wf_generation_2N_witness :
    (genBody trivExt P0 (initState P0 0)).tracker.nodes.length =
        (initState P0 0).tracker.nodes.length + 2 * P0.N ∧
      ((genBody trivExt P0 (initState P0 0)).tracker.nodes.drop
          (initState P0 0).tracker.nodes.length).map Node.id =
        (List.range (2 * P0.N)).map (fun i => (initState P0 0).next_id + i) ∧
      (genBody trivExt P0 (initState P0 0)).tracker.edges.length =
        (initState P0 0).tracker.edges.length + 2 * P0.N ∧
      (∀ e ∈ (genBody trivExt P0 (initState P0 0)).tracker.edges.drop
          (initState P0 0).tracker.edges.length, e.left = 0 ∧ e.right = 1) ∧
      (genBody trivExt P0 (initState P0 0)).next_id = (initState P0 0).next_id + 2 * P0.N :=
  wf_generation_2N trivExt P0 (initState P0 0) (fun _ => rfl) (fun _ => rfl) (by decide)

/-- Externals for the C5 counterexample: a 3-row coalescent prior (two
founder tips plus one ancestor) and a reduction returning a 3-row table. -/
def ext5 : Externals :=
  { trivExt with
    prior := ([⟨1, 0, 0⟩, ⟨1, 0, 0⟩, ⟨0, 0, 1⟩], [])
    simplify_tables := fun _ _ _ => (([⟨1, 0, 0⟩, ⟨1, 0, 0⟩, ⟨0, 0, 2⟩], []), fun i => i) }

/-- Parameters for the C5 counterexample: `N = 1`, interval 3. -/
def P5 : Params := ⟨1, 3, 4, []⟩

/-- The driver state reached after generation 0 of a one-diploid run:
`next_id` has advanced to 4 and the buffer holds generation 0's two nodes
and two edges. -/
def s5 : SimState :=
  { gen := 1
    diploids := [2, 3]
    next_id := 4
    anc_counter := 0
    rng := 42
    tracker := ⟨[⟨2, 1, 0⟩, ⟨3, 1, 0⟩], [⟨0, 1, 0, 2⟩, ⟨0, 1, 0, 3⟩], [2, 3], []⟩
    simplifier := ⟨[], [], 3, 0⟩ }

/-- C5, counterexample: at the (mandatory) generation-1 compaction of this
run, `next_id` is reset from 4 to the post-reduction table length 3
(line 188 of the source) — `next_id` does not grow monotonically across the
run. -/
theorem next_id_decreases_at_gc :
    gcTrigger s5.gen s5.simplifier.gc_interval = Except.ok true ∧
      s5.next_id = 4 ∧ (applyGC ext5 P5 s5).next_id = 3 :=
  ⟨rfl, rfl, rfl⟩

/-- C5 (amended): `next_id` advances by `2N` within each generation but is
*reset* at every compaction to the post-reduction table row count, which can
be smaller than the previous value (counterexample above) — it is not
monotone across the run; and node ids are stored as `uint32` values reduced
modulo `2^32` with no overflow check or abort anywhere (numpy wraps
silently). -/
theorem next_id_advance_and_wrap (E : Externals) (P : Params) (s : SimState)
    (hpar : ∀ st, (E.randParents st P.N).1.length = 2 * P.N)
    (hmen : ∀ st, (E.randMendel st P.N).1.length = P.N) :
    (genBody E P s).next_id = s.next_id + 2 * P.N ∧
      (makeNodes P.N s.gen s.next_id).map Node.id =
        (List.range (2 * P.N)).map fun i => (s.next_id + i) % 2 ^ 32 := by
  refine ⟨?_, makeNodes_ids_mod P.N s.gen s.next_id⟩
  have hfl : ∀ rng1 : Nat, (pairsOf (E.randParents rng1 P.N).1).length = P.N := by
    intro rng1
    rw [pairsOf_length, hpar]
    omega
  unfold genBody
  dsimp only
  have hstats := makeOffspring_stats s.diploids
    (pairsOf (E.randParents
      (if schedFires P.sched s.anc_counter s.gen
        then (E.randChoice s.rng P.N (P.sched.getD s.anc_counter (0, 0)).2).2
        else s.rng) P.N).1)
    (E.randMendel (E.randParents
      (if schedFires P.sched s.anc_counter s.gen
        then (E.randChoice s.rng P.N (P.sched.getD s.anc_counter (0, 0)).2).2
        else s.rng) P.N).2 P.N).1
    s.next_id
    (by rw [hfl, hmen])
  rw [hstats.2.2.1, hfl]

/-- Witness for C5 (amended), at a state whose `next_id` is only `2` below
the wrap point, so that the stored ids visibly wrap modulo `2^32`. -/
theorem next_id_advance_and_wrap_witness :
    (genBody trivExt P0 { initState P0 0 with next_id := 2 ^ 32 - 2 }).next_id =
        (2 ^ 32 - 2) + 2 * P0.N ∧
      (makeNodes P0.N 0 (2 ^ 32 - 2)).map Node.id =
        (List.range (2 * P0.N)).map fun i => ((2 ^ 32 - 2) + i) % 2 ^ 32 :=
  next_id_advance_and_wrap trivExt P0 { initState P0 0 with next_id := 2 ^ 32 - 2 }
    (fun _ => rfl) (fun _ => rfl)

/-- The per-generation step is deterministic: the GC guard evaluates to a
unique result, and both branches are functions of the state. -/
theorem genStep_det (E : Externals) (P : Params) {s t1 t2 : SimState}
    (h1 : GenStep E P s t1) (h2 : GenStep E P s t2) : t1 = t2 := by
  cases h1 with
  | gc hg1 ht1 =>
      cases h2 with
      | gc hg2 ht2 => rw [ht1, ht2]
      | nogc hg2 ht2 =>
          rw [hg1] at hg2
          exact absurd hg2 (by simp)
  | nogc hg1 ht1 =>
      cases h2 with
      | gc hg2 ht2 =>
          rw [hg1] at hg2
          exact absurd hg2 (by simp)
      | nogc hg2 ht2 => rw [ht1, ht2]

/-- `n`-generation runs from a common state agree. -/
theorem runN_det (E : Externals) (P : Params) :
    ∀ {n : Nat} {s t1 t2 : SimState}, RunN E P n s t1 → RunN E P n s t2 → t1 = t2 := by
  intro n
  induction n with
  | zero =>
      intro s t1 t2 h1 h2
      cases h1
      cases h2
      rfl
  | succ n ih =>
      intro s t1 t2 h1 h2
      cases h1 with
      | succ hs1 hr1 =>
          cases h2 with
          | succ hs2 hr2 =>
              have heq := genStep_det E P hs1 hs2
              rw [heq] at hr1
              exact ih hr1 hr2

/-- C8: two complete runs with the same seed and the same parameters (and
the same deterministic external collaborators, which are themselves
functions of seed and parameters) produce identical final simplifier tables
and tracker state. -/
theorem simulation_deterministic (E : Externals) (P : Params) (seed : Nat)
    (out1 out2 : (ARGsimplifier × Tracker) × Bool)
    (h1 : CompleteRun E P seed out1) (h2 : CompleteRun E P seed out2) :
    out1 = out2 := by
  obtain ⟨s1, hr1, ho1⟩ := h1
  obtain ⟨s2, hr2, ho2⟩ := h2
  have hs : s1 = s2 := runN_det E P hr1 hr2
  rw [ho1, ho2, hs]

/-- Witness for C8: a complete one-generation, one-diploid run, executed
twice from the same seed. -/
theorem simulation_deterministic_witness :
    finalFlush trivExt P0.N P0.ngens (genBody trivExt P0 (initState P0 0)).simplifier
        (genBody trivExt P0 (initState P0 0)).tracker =
      finalFlush trivExt P0.N P0.ngens (genBody trivExt P0 (initState P0 0)).simplifier
        (genBody trivExt P0 (initState P0 0)).tracker :=
  simulation_deterministic trivExt P0 0 _ _
    ⟨genBody trivExt P0 (initState P0 0), RunN.succ (GenStep.nogc rfl rfl) RunN.zero, rfl⟩
    ⟨genBody trivExt P0 (initState P0 0), RunN.succ (GenStep.nogc rfl rfl) RunN.zero, rfl⟩

/-- The schedule pointer advances exactly when the current entry fires. -/
theorem genBody_counter (E : Externals) (P : Params) (s : SimState) :
    (genBody E P s).anc_counter =
      if schedFires P.sched s.anc_counter s.gen then s.anc_counter + 1
      else s.anc_counter := rfl

/-- If the entry at schedule position `k` never matches `gen + 1` for any
generation below `gEnd`, the schedule pointer can never pass position `k`
during a run staying below `gEnd` generations. -/
theorem counter_bound (E : Externals) (P : Params) (k gEnd : Nat)
    (hk : ∀ g, g < gEnd → ((g : ℚ) + 1) ≠ (P.sched.getD k (0, 0)).1) :
    ∀ {n : Nat} {s t : SimState}, RunN E P n s t → s.gen + n ≤ gEnd →
      s.anc_counter ≤ k → t.anc_counter ≤ k := by
  intro n s t h
  induction h with
  | zero =>
      intro _ hc
      exact hc
  | @succ m a b c hs hr ih =>
      intro hle hc
      have hgen : b.gen = a.gen + 1 := by
        cases hs with
        | gc hg ht => rw [ht]; rfl
        | nogc hg ht => rw [ht]; rfl
      have hcnt : b.anc_counter ≤ k := by
        cases hs with
        | gc hg ht =>
            subst ht
            rw [genBody_counter]
            by_cases hf : schedFires P.sched (applyGC E P a).anc_counter (applyGC E P a).gen
            · rw [if_pos hf]
              have hca : (applyGC E P a).anc_counter = a.anc_counter := rfl
              rcases Nat.lt_or_ge a.anc_counter k with hlt | hge
              · omega
              · exfalso
                have hek : a.anc_counter = k := Nat.le_antisymm hc hge
                obtain ⟨-, heq⟩ := hf
                have hga : (applyGC E P a).gen = a.gen := rfl
                rw [hca, hga, hek] at heq
                exact hk a.gen (by omega) heq
            · rw [if_neg hf]
              exact hc
        | nogc hg ht =>
            subst ht
            rw [genBody_counter]
            by_cases hf : schedFires P.sched a.anc_counter a.gen
            · rw [if_pos hf]
              rcases Nat.lt_or_ge a.anc_counter k with hlt | hge
              · omega
              · exfalso
                have hek : a.anc_counter = k := Nat.le_antisymm hc hge
                obtain ⟨-, heq⟩ := hf
                rw [hek] at heq
                exact hk a.gen (by omega) heq
            · rw [if_neg hf]
              exact hc
      exact ih (by omega) hcnt

/-- C10: if the schedule entry at position `k` has a generation value that
never equals `gen + 1` for any simulated generation (e.g. `0`, a
non-integral value, or a value beyond the run length), the run proceeds
without error (the check is total), that entry never fires, and — because
the pointer advances only on a match — the pointer never passes `k`, so
every later entry also never fires. -/
theorem unmatched_schedule_entry_never_fires (E : Externals) (P : Params)
    (k seed n : Nat)
    (hk : ∀ g, g < P.ngens → ((g : ℚ) + 1) ≠ (P.sched.getD k (0, 0)).1)
    (hn : n ≤ P.ngens) {t : SimState} (h : RunN E P n (initState P seed) t) :
    t.anc_counter ≤ k := by
  refine counter_bound E P k P.ngens hk h ?_ (Nat.zero_le k)
  have : (initState P seed).gen = 0 := rfl
  omega

/-- Parameters for the C10 witness: a schedule whose single entry carries
the non-integral generation value `5/2`, which can never equal `gen + 1`. -/
def P10 : Params := ⟨1, 5, 2, [((5 : ℚ) / 2, 1)]⟩

/-- Witness for C10: a two-generation run (one no-GC step, one GC step at
generation 1) leaves the schedule pointer at 0 — the `5/2` entry never
fires. -/
theorem unmatched_schedule_entry_never_fires_witness :
    (genBody trivExt P10 (applyGC trivExt P10
        (genBody trivExt P10 (initState P10 0)))).anc_counter ≤ 0 :=
  unmatched_schedule_entry_never_fires trivExt P10 0 0 2
    (by
      intro g hg
      have h2 : g < 2 := hg
      interval_cases g <;> norm_num [P10])
    (le_refl 2)
    (RunN.succ (GenStep.nogc rfl rfl)
      (RunN.succ (GenStep.gc rfl rfl) RunN.zero))

/-- C7, counterexample: at the `uint32` boundary the generation's node ids
wrap (numpy `arange` with `dtype=uint32` wraps silently), so they do not
form the contiguous increasing range `[next_id, next_id + 2N)`: with `N = 1`
and `next_id = 2^32 - 1` the stored ids are `[2^32 - 1, 0]`. -/
theorem node_ids_wrap_at_uint32_boundary :
    (makeNodes 1 0 (2 ^ 32 - 1)).map Node.id = [2 ^ 32 - 1, 0] ∧
      (makeNodes 1 0 (2 ^ 32 - 1)).map Node.id ≠
        (List.range (2 * 1)).map (fun i => (2 ^ 32 - 1) + i) := by
  constructor
  · decide
  · decide
